import Mathlib

/-!
Shallow embedding of the strangely repository (src/src/main.rs): a novelty
image filter that detects faces and composites one of two bundled overlay
bitmaps over each detected face region.

Machine integers are modelled as Nat with an explicit reduction modulo 2^32
where a u32 addition can overflow (release builds wrap; debug builds panic at
the same inputs, so a claim that fails under the wrapping model also fails
under the panicking one).  The f32 scale factor is modelled as a rational
number; every concrete input used in a witness or counterexample is chosen so
that the corresponding f32 computation is exact, and every universally
quantified statement is robust to f32 rounding (it only uses the sign of the
product or a bound that holds for any rounding).
-/

namespace Strangely

/-- Modulus of the u32 type. -/
def U32_MOD : ℕ := 2 ^ 32

/-- Model of the Rust cast of a (real-valued) f32 to u32, written in the
source as a cast with the u32 target type: truncation toward zero, saturating
below at 0 (any negative value, including negative zero, becomes 0) and above
at the largest u32 value.  For non-negative rationals truncation toward zero
coincides with the floor; Int.toNat sends every negative integer to 0, which
matches the saturation below. -/
def f32ToU32 (q : ℚ) : ℕ := min (⌊q⌋).toNat (U32_MOD - 1)

/-- The f32 scale value one half, as an exact rational. -/
def scaleHalf : ℚ := ⟨1, 2, by decide, by decide⟩

/-- The f32 value 2 to the power 28 (exactly representable), as a rational. -/
def scalePow28 : ℚ := ⟨268435456, 1, by decide, by decide⟩

/-- The f32 value 2 to the power 27 (exactly representable), as a rational. -/
def scalePow27 : ℚ := ⟨134217728, 1, by decide, by decide⟩

/-- The f32 value minus one, as a rational. -/
def scaleNegOne : ℚ := ⟨-1, 1, by decide, by decide⟩

/-- A detected face bounding box, mirroring the rustface Rectangle returned by
the detector: signed 32-bit coordinates of the top-left corner, unsigned
32-bit width and height.  The u32 range constraints are stated as hypotheses
on the theorems that need them. -/
structure Bbox where
  x : ℤ
  y : ℤ
  width : ℕ
  height : ℕ
  deriving Repr, DecidableEq

/-- Resampling filters of the image crate (imageops FilterType). -/
inductive ResampleFilter where
  | nearest
  | triangle
  | catmullRom
  | gaussian
  | lanczos3
  deriving Repr, DecidableEq

/-- Everything the compositor loop body of strangify computes for one face
region before handing the pixels to the library: the index into the
two-element overlay array, the two arguments passed to resize (the target
footprint), the filter, and the two coordinates passed to overlay.
posX and posY model the i64 arguments of the overlay call; the i32 to i64 and
u32 to i64 conversions and the i64 subtraction are exact, so they are plain
integer arithmetic. -/
structure Placement where
  faceId : ℕ
  targetW : ℕ
  targetH : ℕ
  posX : ℤ
  posY : ℤ
  filter : ResampleFilter
  deriving Repr, DecidableEq

/-- Model of the line computing a box dimension upscale in strangify: the
product of the dimension with the scale factor, cast to u32.  Written with
integer arithmetic on the numerator and denominator of the scale (the
division on the integers rounds toward negative infinity for the positive
denominator, i.e. it is the floor of the exact product); the lemma
box_upscale_eq_floor below proves this equal to the direct floor-and-saturate
formulation f32ToU32. -/
def box_upscale (scale : ℚ) (dim : ℕ) : ℕ :=
  min (((dim : ℤ) * scale.num / (scale.den : ℤ)).toNat) (U32_MOD - 1)

/-- The loop body of strangify for a single face region, given the boolean
produced by the random call for this iteration.  The additions producing the
resize target are u32 additions, hence the reduction modulo 2^32 (release
semantics; a debug build panics exactly when the reduction bites).  The
offsets are u32 divisions by two; the overlay coordinates are exact i64
arithmetic. -/
def placementFor (scale : ℚ) (coin : Bool) (b : Bbox) : Placement :=
  let face_id : ℕ := if coin then 1 else 0
  let box_w_upscale := box_upscale scale b.width
  let box_h_upscale := box_upscale scale b.height
  let x_offset := box_w_upscale / 2
  let y_offset := box_h_upscale / 2
  { faceId := face_id
    targetW := (b.width + box_w_upscale) % U32_MOD
    targetH := (b.height + box_h_upscale) % U32_MOD
    posX := b.x - (x_offset : ℤ)
    posY := b.y - (y_offset : ℤ)
    filter := ResampleFilter.catmullRom }

/-- The sequence of placements produced by the compositor loop, with the
iteration counter made explicit: the i-th iteration consumes the i-th value of
the random coin stream. -/
def placementsAux (scale : ℚ) (coins : ℕ → Bool) : ℕ → List Bbox → List Placement
  | _, [] => []
  | i, b :: rest => placementFor scale (coins i) b :: placementsAux scale coins (i + 1) rest

/-- The placements of strangify for a detected face list, starting the coin
stream at index 0. -/
def placements (scale : ℚ) (coins : ℕ → Bool) (faces : List Bbox) : List Placement :=
  placementsAux scale coins 0 faces

/-- Model of strangify: the detector output is a list of face regions fixed
before the loop runs; the loop then applies one resize-and-composite
operation per region to the image, in order.  The image type, and the
library routine that resizes the selected overlay and alpha-composites it at
the placement position (clipping off-canvas pixels), are opaque collaborators
and therefore parameters. -/
def strangify {Img : Type} (draw : Img → Placement → Img) (scale : ℚ)
    (coins : ℕ → Bool) (faces : List Bbox) (img : Img) : Img :=
  (placements scale coins faces).foldl draw img

/-- The two-element overlay array built from the bundled strangeway bitmaps. -/
def overlayAssets {α : Type} (a0 a1 : α) : List α := [a0, a1]

/-- Model of the array indexing that selects the overlay for a face: Rust
array indexing panics out of bounds, modelled by none. -/
def overlayChoice {α : Type} (a0 a1 : α) (i : ℕ) : Option α :=
  (overlayAssets a0 a1).get? i

/-- Model of resize_dimensions of the image crate with the fill flag false,
which is what DynamicImage.resize calls after its fast path (returning the
image unchanged when the requested size equals the current size): the largest
size that fits inside the requested bounds while preserving the aspect ratio
of the source.  The crate computes the two ratios and the rounding in f64;
they are modelled as exact rationals, and every concrete input used below is
dyadic so that the f64 computation is exact there.  Rounding is round half
away from zero, which on the non-negative values arising here is the same as
the Mathlib round (floor of the value plus one half).  The u32::MAX clamping
branches of the crate are omitted: with the minimum ratio the candidate
dimensions are bounded by the requested u32 bounds, so they are unreachable
here. -/
def resizeDims (w h nw nh : ℕ) : ℕ × ℕ :=
  if nw = w ∧ nh = h then (nw, nh)
  else
    let wr : ℚ := (nw : ℚ) / (w : ℚ)
    let hr : ℚ := (nh : ℚ) / (h : ℚ)
    let r : ℚ := min wr hr
    (max (round ((w : ℚ) * r)).toNat 1, max (round ((h : ℚ) * r)).toNat 1)

/-- Modelled from the spec: the two bundled overlay assets (the strangeway
bitmap files embedded at build time) are binary files absent from src, and
neither the spec nor the sources record their pixel dimensions; they are
modelled as square bitmaps of 512 by 512 pixels.  The refutation of
exact-footprint resizing below does not depend on this choice: a fixed aspect
ratio can match the footprint aspect ratio of at most one of the two
footprint shapes 60 by 30 and 30 by 60, both reachable from concrete face
regions. -/
def strangewayDims : ℕ × ℕ := (512, 512)

/-- The query parameters accepted by the HTTP handler: a required url and an
optional scale. -/
structure RootParams where
  url : String
  scale : Option ℚ
  deriving Repr

/-- An HTTP response produced by the handler root: either the encoded jpeg
body with its two headers, or a plain-text error body. -/
inductive RootResponse (B : Type) where
  | image (body : B) (contentType : String) (contentDisposition : String)
  | errorText (msg : String)
  deriving Repr, DecidableEq

/-- The default scale 0.55 of the command line and of the HTTP handler, as
the exact value of the nearest f32 to 0.55 (9227469 divided by 2 to the 24). -/
def DEFAULT_SCALE : ℚ := ⟨9227469, 16777216, by decide, by decide⟩

/-- Model of get_url_image: fetch the bytes of the url (the ureq call and the
read to end), decode them with a guessed format, and pair the image with the
stem and extension of the url.  The source unwraps both fallible steps, so a
fetch failure or undecodable bytes is a panic, modelled by none.  The byte
fetch, the decoder, and the path stem and extension computations are external
collaborators and therefore parameters. -/
def get_url_image {Img : Type} (fetchUrl : String → Except Unit (List ℕ))
    (decodeBytes : List ℕ → Except Unit Img)
    (fileStem fileExt : String → String) (url : String) :
    Option (Img × String × String) :=
  match fetchUrl url with
  | Except.error _ => none
  | Except.ok buf =>
    match decodeBytes buf with
    | Except.error _ => none
    | Except.ok img => some (img, fileStem url, fileExt url)

/-- Model of the HTTP handler root.  The axum extractor yields none when the
request has no query string or the query string lacks the required url
parameter; the handler then returns the plain-text error body.  Otherwise it
fetches and decodes the remote image (panicking, i.e. none, on failure, since
get_url_image unwraps), composites, and encodes to jpeg, converting an
encoding failure into a plain-text error body.  A none result models a
panicking handler: the request terminates without any HTTP response.  The
detector output on a given image and the pixel-level composite are opaque
collaborators and therefore parameters. -/
def root {Img B : Type} (fetchUrl : String → Except Unit (List ℕ))
    (decodeBytes : List ℕ → Except Unit Img)
    (encodeJpeg : Img → Except Unit B)
    (fileStem fileExt : String → String)
    (detect : Img → List Bbox) (draw : Img → Placement → Img)
    (coins : ℕ → Bool) (query : Option RootParams) :
    Option (RootResponse B) :=
  match query with
  | some params =>
    match get_url_image fetchUrl decodeBytes fileStem fileExt params.url with
    | none => none
    | some (img, stem, _) =>
      let img2 := strangify draw (params.scale.getD DEFAULT_SCALE) coins (detect img) img
      match encodeJpeg img2 with
      | Except.ok body =>
        some (RootResponse.image body "image/jpeg"
          ("attachment; filename=\"" ++ stem ++ ".jpg\""))
      | Except.error _ => some (RootResponse.errorText "Failed to encode image")
  | none => some (RootResponse.errorText "No query params")

/-- The command line arguments, after parsing. -/
structure ArgsModel where
  path : Option String
  url : Option String
  scale : ℚ
  webServer : Bool
  port : ℕ
  deriving Repr

/-- The output file name written by local mode: stem, underscore, fresh uuid,
dot, extension, in the current directory. -/
def output_filename (stem uuid ext : String) : String :=
  "./" ++ stem ++ "_" ++ uuid ++ "." ++ ext

/-- Model of the function local (named localRun here because local is a
keyword): resolve the image from the path if one was given, else from the
url, else panic; composite; then save under the generated name.  The result
is the save call actually performed, as the pair of the output file name and
the image written; an error result models a panic, with the message of the
expect call when the local path does not open (nothing is written in that
case, since the save is the last step).  Opening a local file, fetching a
url, the stem and extension of a path, the detector and the composite are
external collaborators and therefore parameters; the fresh uuid is a
parameter as well. -/
def localRun {Img : Type} (openImage : String → Option Img)
    (urlImage : String → Option (Img × String × String))
    (fileStem fileExt : String → String)
    (detect : Img → List Bbox) (draw : Img → Placement → Img)
    (coins : ℕ → Bool) (uuid : String) (args : ArgsModel) :
    Except String (String × Img) :=
  match args.path with
  | some path =>
    match openImage path with
    | none => Except.error "No such file or directory"
    | some img =>
      let img2 := strangify draw args.scale coins (detect img) img
      Except.ok (output_filename (fileStem path) uuid (fileExt path), img2)
  | none =>
    match args.url with
    | some url =>
      match urlImage url with
      | none => Except.error "panic in get_url_image"
      | some (img, stem, ext) =>
        let img2 := strangify draw args.scale coins (detect img) img
        Except.ok (output_filename stem uuid ext, img2)
    | none => Except.error "no image available"

/-- The integer num/den formulation of box_upscale agrees with the
floor-of-the-exact-product formulation of the f32 to u32 cast. -/
theorem box_upscale_eq_floor (scale : ℚ) (dim : ℕ) :
    box_upscale scale dim = f32ToU32 ((dim : ℚ) * scale) := by
  unfold box_upscale f32ToU32
  congr 2
  rw [show ((dim : ℚ) * scale) = (((dim : ℤ) * scale.num : ℤ) : ℚ) / ((scale.den : ℕ) : ℚ) by
        conv_lhs => rw [← Rat.num_div_den scale]
        push_cast
        ring,
      Rat.floor_intCast_div_natCast]

/-- Length of the placement list produced by the compositor loop: one
placement per face region, whatever the starting coin index. -/
theorem placementsAux_length (scale : ℚ) (coins : ℕ → Bool) (l : List Bbox) :
    ∀ k : ℕ, (placementsAux scale coins k l).length = l.length := by
  induction l with
  | nil => intro k; rfl
  | cons b rest ih => intro k; simp [placementsAux, ih]

/-- The i-th placement of the compositor loop depends only on the i-th face
region and on the i-th value of the coin stream, counted from the starting
index. -/
theorem placementsAux_get? (scale : ℚ) (coins : ℕ → Bool) (l : List Bbox) :
    ∀ k i : ℕ,
      (placementsAux scale coins k l).get? i =
        (l.get? i).map (placementFor scale (coins (k + i))) := by
  induction l with
  | nil => intro k i; simp [placementsAux]
  | cons b rest ih =>
    intro k i
    cases i with
    | zero => simp [placementsAux]
    | succ i =>
      have h : k + 1 + i = k + (i + 1) := by omega
      simpa [placementsAux, h] using ih (k + 1) i

/-- A negative scale factor makes the upscale zero: the product of the
non-negative dimension with the scale is non-positive, its floor is
non-positive, and the saturating cast sends it to zero. -/
theorem box_upscale_of_neg {scale : ℚ} (hs : scale < 0) (dim : ℕ) :
    box_upscale scale dim = 0 := by
  rw [box_upscale_eq_floor]
  unfold f32ToU32
  have h1 : ((dim : ℚ) * scale) ≤ 0 :=
    mul_nonpos_of_nonneg_of_nonpos (by positivity) hs.le
  have h2 : ⌊(dim : ℚ) * scale⌋ ≤ 0 := by
    simpa using Int.floor_le_floor h1
  simp [Int.toNat_of_nonpos h2]

/-- C1 (amended): for every face region and every scale factor for which
neither enlarged dimension overflows u32, the compositor computes the resize
target as the box dimension plus the u32 cast of the product of the dimension
with the scale (the truncation; see box_upscale_eq_floor for the
floor-and-saturate reading), the placement offset as half the difference
between the target and the box dimension, and the overlay position as the box
corner minus the offset.  With an overflowing scale the u32 addition wraps
(release) or panics (debug), see the counterexample. -/
theorem placement_enlargement_offset_position (scale : ℚ) (coin : Bool) (b : Bbox)
    (hW : b.width + box_upscale scale b.width < U32_MOD)
    (hH : b.height + box_upscale scale b.height < U32_MOD) :
    (placementFor scale coin b).targetW = b.width + box_upscale scale b.width ∧
      (placementFor scale coin b).targetH = b.height + box_upscale scale b.height ∧
      (placementFor scale coin b).posX =
        b.x - ((((placementFor scale coin b).targetW - b.width) / 2 : ℕ) : ℤ) ∧
      (placementFor scale coin b).posY =
        b.y - ((((placementFor scale coin b).targetH - b.height) / 2 : ℕ) : ℤ) := by
  refine ⟨?_, ?_, ?_, ?_⟩ <;>
    simp [placementFor, Nat.mod_eq_of_lt hW, Nat.mod_eq_of_lt hH,
      Nat.add_sub_cancel_left]

/-- C1 witness: the concrete scenario of the claim: box (100, 100, 40, 40)
at scale one half gives upscale 20, enlarged footprint (60, 60), offset
(10, 10) and overlay top-left corner (90, 90). -/
theorem placement_enlargement_offset_position_witness :
    (40 + box_upscale scaleHalf 40 < U32_MOD) ∧
      (placementFor scaleHalf false ⟨100, 100, 40, 40⟩).targetW =
        40 + box_upscale scaleHalf 40 ∧
      box_upscale scaleHalf 40 = 20 ∧
      placementFor scaleHalf false ⟨100, 100, 40, 40⟩ =
        ⟨0, 60, 60, 90, 90, ResampleFilter.catmullRom⟩ ∧
      (60 - 40) / 2 = (10 : ℕ) :=
  ⟨by decide,
    (placement_enlargement_offset_position scaleHalf false ⟨100, 100, 40, 40⟩
      (by decide) (by decide)).1,
    by decide, by decide, by decide⟩

/-- C1 counterexample: at box width 20 and the exactly representable f32
scale 2 to the 28, the cast saturates at the largest u32 (the exact truncated
product would be 5368709120) and the u32 addition wraps: the resize target
passed on is 19, not box width plus the truncated product (neither the
saturated 4294967295 nor the exact 5368709120), so the claimed enlargement
formula fails at this input. -/
theorem placement_enlargement_overflow_cex :
    (placementFor scalePow28 false ⟨0, 0, 20, 20⟩).targetW = 19 ∧
      box_upscale scalePow28 20 = 4294967295 ∧
      19 ≠ 20 + 4294967295 := by
  refine ⟨by decide, by decide, by decide⟩

/-- C6 (amended): for every bounding box and every non-negative scale factor
for which the enlarged dimensions do not overflow u32, the resize target is
at least as large as the original box in both dimensions. -/
theorem footprint_ge_box_no_overflow (scale : ℚ) (coin : Bool) (b : Bbox)
    (_hs : 0 ≤ scale)
    (hW : b.width + box_upscale scale b.width < U32_MOD)
    (hH : b.height + box_upscale scale b.height < U32_MOD) :
    b.width ≤ (placementFor scale coin b).targetW ∧
      b.height ≤ (placementFor scale coin b).targetH := by
  constructor <;>
    simp [placementFor, Nat.mod_eq_of_lt hW, Nat.mod_eq_of_lt hH]

/-- C6 witness: the box (100, 100, 40, 40) at the non-negative scale one half
has resize target at least 40 in both dimensions. -/
theorem footprint_ge_box_no_overflow_witness :
    ((0 : ℚ) ≤ scaleHalf ∧ 40 + box_upscale scaleHalf 40 < U32_MOD) ∧
      40 ≤ (placementFor scaleHalf false ⟨100, 100, 40, 40⟩).targetW ∧
      40 ≤ (placementFor scaleHalf false ⟨100, 100, 40, 40⟩).targetH :=
  ⟨⟨by decide, by decide⟩,
    footprint_ge_box_no_overflow scaleHalf false ⟨100, 100, 40, 40⟩
      (by decide) (by decide) (by decide)⟩

/-- C6 counterexample: at box width 40 and the non-negative, exactly
representable f32 scale 2 to the 27, the cast saturates and the u32 addition
wraps to 39, which is smaller than the original box width 40, so the claimed
inequality fails at this input (a debug build panics on the same addition). -/
theorem footprint_overflow_cex :
    (0 : ℚ) ≤ scalePow27 ∧
      (placementFor scalePow27 false ⟨0, 0, 40, 40⟩).targetW = 39 ∧
      ¬ 40 ≤ (placementFor scalePow27 false ⟨0, 0, 40, 40⟩).targetW := by
  refine ⟨by decide, by decide, by decide⟩

/-- C2: for every image on which the face detector returns zero face regions,
the compositor leaves the image unchanged, for any scale factor, any coin
stream and any composite routine: the loop body never runs. -/
theorem strangify_zero_faces_identity {Img : Type} (draw : Img → Placement → Img)
    (scale : ℚ) (coins : ℕ → Bool) (detect : Img → List Bbox) (img : Img)
    (h : detect img = []) :
    strangify draw scale coins (detect img) img = img := by
  rw [h]; rfl

/-- C2 witness: a concrete image value 7 with a detector returning no faces
and a composite routine that would change the value passes through
unchanged. -/
theorem strangify_zero_faces_identity_witness :
    strangify (fun (n : ℕ) (_ : Placement) => n + 1) scaleHalf (fun _ => false)
      ([] : List Bbox) 7 = 7 :=
  strangify_zero_faces_identity (fun n _ => n + 1) scaleHalf (fun _ => false)
    (fun _ => []) 7 rfl

/-- C5: the compositor performs exactly one overlay placement per detected
face region (the list of placements folded over the image has the length of
the detected list), and the i-th placement is a function of the i-th region
and the i-th coin alone, independent of the other regions. -/
theorem placements_one_per_region (scale : ℚ) (coins : ℕ → Bool) (faces : List Bbox) :
    (placements scale coins faces).length = faces.length ∧
      ∀ i : ℕ, (placements scale coins faces).get? i =
        (faces.get? i).map (placementFor scale (coins i)) := by
  refine ⟨placementsAux_length scale coins faces 0, fun i => ?_⟩
  simpa using placementsAux_get? scale coins faces 0 i

/-- C8: a request with no usable query parameters (the axum extractor yields
none) gets the plain-text error response, which by the shape of the errorText
constructor carries only the message string and no image payload. -/
theorem root_no_query_error_response {Img B : Type}
    (fetchUrl : String → Except Unit (List ℕ))
    (decodeBytes : List ℕ → Except Unit Img) (encodeJpeg : Img → Except Unit B)
    (fileStem fileExt : String → String) (detect : Img → List Bbox)
    (draw : Img → Placement → Img) (coins : ℕ → Bool) :
    root fetchUrl decodeBytes encodeJpeg fileStem fileExt detect draw coins none =
      some (RootResponse.errorText "No query params") := rfl

/-- C9: the overlay index computed from the coin flip is 0 or 1, hence always
in bounds for the two-element overlay array, and the selected overlay is one
of the two bundled assets. -/
theorem overlay_index_in_bounds {α : Type} (a0 a1 : α) (scale : ℚ) (coin : Bool)
    (b : Bbox) :
    (placementFor scale coin b).faceId < 2 ∧
      (overlayChoice a0 a1 (placementFor scale coin b).faceId = some a0 ∨
        overlayChoice a0 a1 (placementFor scale coin b).faceId = some a1) := by
  cases coin <;> simp [placementFor, overlayChoice, overlayAssets]

/-- Fit bound for the aspect-preserving resize: with the minimum of the two
ratios, each rounded dimension stays within the requested bounds (the bounds
being at least one). -/
theorem resizeDims_le (aw ah tw th : ℕ) (haw : 0 < aw) (hah : 0 < ah)
    (htw : 0 < tw) (hth : 0 < th) :
    (resizeDims aw ah tw th).1 ≤ tw ∧ (resizeDims aw ah tw th).2 ≤ th := by
  unfold resizeDims
  split
  next h => exact ⟨le_rfl, le_rfl⟩
  next h =>
    have haw' : ((aw : ℚ)) ≠ 0 := by positivity
    have hah' : ((ah : ℚ)) ≠ 0 := by positivity
    dsimp only
    constructor
    · have h1 : (aw : ℚ) * min ((tw : ℚ)/(aw : ℚ)) ((th : ℚ)/(ah : ℚ)) ≤
          (aw : ℚ) * ((tw : ℚ)/(aw : ℚ)) :=
        mul_le_mul_of_nonneg_left (min_le_left _ _) (by positivity)
      have h2 : (aw : ℚ) * ((tw : ℚ)/(aw : ℚ)) = (tw : ℚ) := by
        rw [← mul_div_assoc]
        exact mul_div_cancel_left₀ _ haw'
      have h3 : round ((aw : ℚ) * min ((tw : ℚ)/(aw : ℚ)) ((th : ℚ)/(ah : ℚ))) ≤ (tw : ℤ) := by
        calc round ((aw : ℚ) * min ((tw : ℚ)/(aw : ℚ)) ((th : ℚ)/(ah : ℚ)))
            ≤ round ((tw : ℚ)) := by
              rw [round_eq, round_eq]
              exact Int.floor_le_floor (by linarith)
          _ = tw := round_natCast tw
      exact max_le (Int.toNat_le.mpr h3) htw
    · have h1 : (ah : ℚ) * min ((tw : ℚ)/(aw : ℚ)) ((th : ℚ)/(ah : ℚ)) ≤
          (ah : ℚ) * ((th : ℚ)/(ah : ℚ)) :=
        mul_le_mul_of_nonneg_left (min_le_right _ _) (by positivity)
      have h2 : (ah : ℚ) * ((th : ℚ)/(ah : ℚ)) = (th : ℚ) := by
        rw [← mul_div_assoc]
        exact mul_div_cancel_left₀ _ hah'
      have h3 : round ((ah : ℚ) * min ((tw : ℚ)/(aw : ℚ)) ((th : ℚ)/(ah : ℚ))) ≤ (th : ℤ) := by
        calc round ((ah : ℚ) * min ((tw : ℚ)/(aw : ℚ)) ((th : ℚ)/(ah : ℚ)))
            ≤ round ((th : ℚ)) := by
              rw [round_eq, round_eq]
              exact Int.floor_le_floor (by linarith)
          _ = th := round_natCast th
      exact max_le (Int.toNat_le.mpr h3) hth

/-- When the requested bounds have exactly the aspect ratio of the source,
the aspect-preserving resize hits the bounds exactly. -/
theorem resizeDims_ratio_eq (aw ah tw th : ℕ) (haw : 0 < aw) (hah : 0 < ah)
    (htw : 0 < tw) (hth : 0 < th) (hratio : tw * ah = th * aw) :
    resizeDims aw ah tw th = (tw, th) := by
  unfold resizeDims
  split
  next h => rfl
  next h =>
    have haw' : ((aw : ℚ)) ≠ 0 := by positivity
    have hah' : ((ah : ℚ)) ≠ 0 := by positivity
    have hq : (tw : ℚ)/(aw : ℚ) = (th : ℚ)/(ah : ℚ) := by
      rw [div_eq_div_iff haw' hah']
      exact_mod_cast hratio
    have e1 : (aw : ℚ) * min ((tw : ℚ)/(aw : ℚ)) ((th : ℚ)/(ah : ℚ)) = (tw : ℚ) := by
      rw [hq, min_self, ← hq, ← mul_div_assoc, mul_div_cancel_left₀ _ haw']
    have e2 : (ah : ℚ) * min ((tw : ℚ)/(aw : ℚ)) ((th : ℚ)/(ah : ℚ)) = (th : ℚ) := by
      rw [hq, min_self, ← mul_div_assoc, mul_div_cancel_left₀ _ hah']
    dsimp only
    rw [e1, e2, round_natCast, round_natCast, Int.toNat_natCast, Int.toNat_natCast,
      Nat.max_eq_left htw, Nat.max_eq_left hth]

/-- C4 (amended): the overlay asset is resized with the CatmullRom
(cubic-family) filter, but to the largest dimensions that fit inside the
enlarged footprint while preserving the aspect ratio of the asset, as the
aspect-preserving resize of the image crate does; the resized dimensions
equal the footprint exactly when the footprint has the aspect ratio of the
asset, and in general are only bounded by it. -/
theorem resize_fits_footprint_aspect (aw ah tw th : ℕ)
    (haw : 0 < aw) (hah : 0 < ah) (htw : 0 < tw) (hth : 0 < th) :
    (resizeDims aw ah tw th).1 ≤ tw ∧ (resizeDims aw ah tw th).2 ≤ th ∧
      (tw * ah = th * aw → resizeDims aw ah tw th = (tw, th)) ∧
      ∀ (scale : ℚ) (coin : Bool) (b : Bbox),
        (placementFor scale coin b).filter = ResampleFilter.catmullRom :=
  ⟨(resizeDims_le aw ah tw th haw hah htw hth).1,
    (resizeDims_le aw ah tw th haw hah htw hth).2,
    fun hr => resizeDims_ratio_eq aw ah tw th haw hah htw hth hr,
    fun _ _ _ => rfl⟩

/-- C4 witness: resizing the modelled square asset to the square footprint
50 by 50 fits within the footprint and, the aspect ratios agreeing, hits it
exactly. -/
theorem resize_fits_footprint_aspect_witness :
    ((0 : ℕ) < 512 ∧ (0 : ℕ) < 50) ∧
      (resizeDims 512 512 50 50).1 ≤ 50 ∧ (resizeDims 512 512 50 50).2 ≤ 50 ∧
      resizeDims 512 512 50 50 = (50, 50) :=
  ⟨⟨by decide, by decide⟩,
    (resize_fits_footprint_aspect 512 512 50 50 (by decide) (by decide) (by decide)
      (by decide)).1,
    (resize_fits_footprint_aspect 512 512 50 50 (by decide) (by decide) (by decide)
      (by decide)).2.1,
    (resize_fits_footprint_aspect 512 512 50 50 (by decide) (by decide) (by decide)
      (by decide)).2.2.1 rfl⟩

/-- C4 counterexample: the face region at (100, 100) of size 40 by 20 at
scale one half yields the enlarged footprint (60, 30); resizing the modelled
512 by 512 overlay asset to that footprint with the aspect-preserving resize
yields (30, 30), not (60, 30), so the resized overlay dimensions do not equal
the enlarged footprint at this input. -/
theorem resize_footprint_mismatch_cex :
    (placementFor scaleHalf false ⟨100, 100, 40, 20⟩).targetW = 60 ∧
      (placementFor scaleHalf false ⟨100, 100, 40, 20⟩).targetH = 30 ∧
      resizeDims strangewayDims.1 strangewayDims.2 60 30 = (30, 30) ∧
      ((30, 30) : ℕ × ℕ) ≠ (60, 30) := by
  refine ⟨by decide, by decide, ?_, by decide⟩
  show resizeDims 512 512 60 30 = (30, 30)
  simp only [resizeDims]
  rw [if_neg (by simp)]
  push_cast
  rw [show min ((60 : ℚ)/(512 : ℚ)) ((30 : ℚ)/(512 : ℚ)) = (30 : ℚ)/(512 : ℚ) from
    min_eq_right (by norm_num)]
  norm_num [round_ofNat]
  decide

/-- C7: in local mode, when a path was supplied and opening it fails (for a
path that does not exist the image open call fails), the process panics with
the input-not-found diagnostic of the expect call before any compositing or
saving happens, so no output file is produced. -/
theorem local_missing_path_no_output {Img : Type} (openImage : String → Option Img)
    (urlImage : String → Option (Img × String × String))
    (fileStem fileExt : String → String) (detect : Img → List Bbox)
    (draw : Img → Placement → Img) (coins : ℕ → Bool) (uuid : String)
    (args : ArgsModel) (path : String)
    (hp : args.path = some path) (ho : openImage path = none) :
    localRun openImage urlImage fileStem fileExt detect draw coins uuid args =
      Except.error "No such file or directory" ∧
      ∀ out : String × Img,
        localRun openImage urlImage fileStem fileExt detect draw coins uuid args ≠
          Except.ok out := by
  constructor
  · simp [localRun, hp, ho]
  · intro out hc
    simp [localRun, hp, ho] at hc

/-- C7 witness: a concrete run whose local path does not open fails with the
input-not-found diagnostic and performs no save. -/
theorem local_missing_path_no_output_witness :
    localRun (fun _ : String => (none : Option ℕ)) (fun _ => none)
      (fun _ => "missing") (fun _ => "png") (fun _ => []) (fun n _ => n)
      (fun _ => false) "123e4567" ⟨some "missing.png", none, scaleHalf, false, 8080⟩ =
      Except.error "No such file or directory" :=
  (local_missing_path_no_output (fun _ => none) (fun _ => none) (fun _ => "missing")
    (fun _ => "png") (fun _ => []) (fun n _ => n) (fun _ => false) "123e4567"
    ⟨some "missing.png", none, scaleHalf, false, 8080⟩ "missing.png" rfl rfl).1

/-- C3 (amended): in server mode, a request with no usable query parameters
and a request whose jpeg encoding fails are converted to plain-text HTTP
error responses, and a fully successful request gets the image response with
its two headers; but a failed remote fetch or undecodable image bytes makes
the handler panic through the unwrap calls in get_url_image, so that request
terminates without producing any response at all (the serving runtime keeps
the process alive, which lies outside this model). -/
theorem root_request_outcomes {Img B : Type}
    (fetchUrl : String → Except Unit (List ℕ))
    (decodeBytes : List ℕ → Except Unit Img) (encodeJpeg : Img → Except Unit B)
    (fileStem fileExt : String → String) (detect : Img → List Bbox)
    (draw : Img → Placement → Img) (coins : ℕ → Bool) :
    (root fetchUrl decodeBytes encodeJpeg fileStem fileExt detect draw coins none =
        some (RootResponse.errorText "No query params")) ∧
      (∀ (p : RootParams) (e : Unit), fetchUrl p.url = Except.error e →
        root fetchUrl decodeBytes encodeJpeg fileStem fileExt detect draw coins
            (some p) = none) ∧
      (∀ (p : RootParams) (buf : List ℕ) (e : Unit),
        fetchUrl p.url = Except.ok buf → decodeBytes buf = Except.error e →
        root fetchUrl decodeBytes encodeJpeg fileStem fileExt detect draw coins
            (some p) = none) ∧
      (∀ (p : RootParams) (buf : List ℕ) (img : Img) (e : Unit),
        fetchUrl p.url = Except.ok buf → decodeBytes buf = Except.ok img →
        encodeJpeg (strangify draw (p.scale.getD DEFAULT_SCALE) coins (detect img) img) =
          Except.error e →
        root fetchUrl decodeBytes encodeJpeg fileStem fileExt detect draw coins
            (some p) = some (RootResponse.errorText "Failed to encode image")) ∧
      (∀ (p : RootParams) (buf : List ℕ) (img : Img) (body : B),
        fetchUrl p.url = Except.ok buf → decodeBytes buf = Except.ok img →
        encodeJpeg (strangify draw (p.scale.getD DEFAULT_SCALE) coins (detect img) img) =
          Except.ok body →
        root fetchUrl decodeBytes encodeJpeg fileStem fileExt detect draw coins
            (some p) =
          some (RootResponse.image body "image/jpeg"
            ("attachment; filename=\"" ++ fileStem p.url ++ ".jpg\""))) := by
  refine ⟨rfl, ?_, ?_, ?_, ?_⟩
  · intro p e hf
    simp [root, get_url_image, hf]
  · intro p buf e hf hd
    simp [root, get_url_image, hf, hd]
  · intro p buf img e hf hd he
    simp [root, get_url_image, hf, hd, he]
  · intro p buf img body hf hd he
    simp [root, get_url_image, hf, hd, he]

/-- C3 witness: with a fetch that fails, the handler of a request carrying a
url produces no response (it panics), while a request without query
parameters gets the plain-text error response; both follow from the outcome
characterization applied at concrete collaborators. -/
theorem root_request_outcomes_witness :
    @root Unit Unit (fun _ => Except.error ()) (fun _ => Except.ok ())
        (fun _ => Except.ok ()) (fun _ => "s") (fun _ => "e") (fun _ => [])
        (fun i _ => i) (fun _ => false) (some ⟨"u", none⟩) = none ∧
      @root Unit Unit (fun _ => Except.error ()) (fun _ => Except.ok ())
        (fun _ => Except.ok ()) (fun _ => "s") (fun _ => "e") (fun _ => [])
        (fun i _ => i) (fun _ => false) none =
        some (RootResponse.errorText "No query params") :=
  ⟨(root_request_outcomes (fun _ => Except.error ()) (fun _ => Except.ok ())
      (fun _ => Except.ok ()) (fun _ => "s") (fun _ => "e") (fun _ => [])
      (fun i _ => i) (fun _ => false)).2.1 ⟨"u", none⟩ () rfl,
    (root_request_outcomes (fun _ => Except.error ()) (fun _ => Except.ok ())
      (fun _ => Except.ok ()) (fun _ => "s") (fun _ => "e") (fun _ => [])
      (fun i _ => i) (fun _ => false)).1⟩

/-- C3 counterexample: a concrete request carrying a url whose remote fetch
fails is not converted into an HTTP error response: the handler panics on the
unwrap inside get_url_image and the request terminates with no response at
all, refuting the claim that every per-request error yields an error
response. -/
theorem root_fetch_error_no_response_cex :
    @root Unit Unit (fun _ => Except.error ()) (fun _ => Except.ok ())
      (fun _ => Except.ok ()) (fun _ => "stem") (fun _ => "ext") (fun _ => [])
      (fun i _ => i) (fun _ => false)
      (some ⟨"http://example.com/a.jpg", none⟩) = none := rfl

/-- C10: for every negative scale factor the compositor does not fail: the
cast of the product to u32 is 0 for both dimensions, so the resize target
equals the original bounding box, both offsets are 0, and the overlay is
drawn at exactly the top-left corner of the bounding box.  The width and
height hypotheses state that the box dimensions are u32 values. -/
theorem negative_scale_identity_footprint (scale : ℚ) (coin : Bool) (b : Bbox)
    (hs : scale < 0) (hw : b.width < U32_MOD) (hh : b.height < U32_MOD) :
    box_upscale scale b.width = 0 ∧ box_upscale scale b.height = 0 ∧
      (placementFor scale coin b).targetW = b.width ∧
      (placementFor scale coin b).targetH = b.height ∧
      (placementFor scale coin b).posX = b.x ∧
      (placementFor scale coin b).posY = b.y := by
  have h1 := box_upscale_of_neg hs b.width
  have h2 := box_upscale_of_neg hs b.height
  refine ⟨h1, h2, ?_, ?_, ?_, ?_⟩ <;>
    simp [placementFor, h1, h2, Nat.mod_eq_of_lt hw, Nat.mod_eq_of_lt hh]

/-- C10 witness: at scale minus one and a concrete box at (3, 4) of size 25
by 30, the resize target is the box itself and the overlay position is (3, 4). -/
theorem negative_scale_identity_footprint_witness :
    (scaleNegOne < 0 ∧ (25 : ℕ) < U32_MOD ∧ (30 : ℕ) < U32_MOD) ∧
      (box_upscale scaleNegOne 25 = 0 ∧ box_upscale scaleNegOne 30 = 0 ∧
        (placementFor scaleNegOne true ⟨3, 4, 25, 30⟩).targetW = 25 ∧
        (placementFor scaleNegOne true ⟨3, 4, 25, 30⟩).targetH = 30 ∧
        (placementFor scaleNegOne true ⟨3, 4, 25, 30⟩).posX = 3 ∧
        (placementFor scaleNegOne true ⟨3, 4, 25, 30⟩).posY = 4) :=
  ⟨⟨by decide, by decide, by decide⟩,
    negative_scale_identity_footprint scaleNegOne true ⟨3, 4, 25, 30⟩
      (by decide) (by decide) (by decide)⟩

end Strangely
